import Mathlib

/-!
Verification of the lockfree repository's two SPSC primitives against its
design specification: the bounded FIFO ring channel (src/lockfree_queue.rs,
`RingBuffer`) and the latest-value slot (src/lockfree_value.rs and
src/default/value.rs, `LockFreeValue`).

The Rust structures are embedded shallowly: the fixed array `m_data : [T; SIZE]`
becomes a `List T` whose length plays the role of `SIZE`; the two atomic
cursors become plain `Nat` fields (all claims are about the sequential
semantics, so atomic loads and stores are ordinary reads and writes); a method
taking `&mut self` becomes a function from the state to a result paired with
the updated state.  `std::mem::zeroed` and `T::default()` are both modelled by
an explicit `zero : T` parameter standing for the bit pattern written into a
vacated slot.
-/

namespace LockfreeQueue

/-- The error enum of lockfree_queue.rs: `enum Error { Empty, Full }`.
Neither variant carries a payload. -/
inductive Error where
  | Empty : Error
  | Full : Error
deriving DecidableEq

/-- `RingBuffer<T, SIZE>` from lockfree_queue.rs: head and tail cursors plus
the backing array.  The array is a list whose length is the const `SIZE`. -/
structure RingBuffer (T : Type) where
  idx_head : Nat
  idx_tail : Nat
  m_data : List T
deriving DecidableEq

variable {T : Type}

/-- The const generic `SIZE` of the buffer. -/
def RingBuffer.size (rb : RingBuffer T) : Nat := rb.m_data.length

/-- `RingBuffer::new` via `T::default()`: both cursors zero, every slot the
default value. -/
def RingBuffer.new (dflt : T) (SIZE : Nat) : RingBuffer T :=
  ⟨0, 0, List.replicate SIZE dflt⟩

/-- `RingBuffer::push`: load head and tail, advance head with wraparound
(`if head == SIZE { head = 0 }`), fail with `Full` if the advanced head meets
the tail, otherwise store the value at the old head and publish the advanced
head.  The pair mirrors the Rust `(Result<(), Error>, state of self)`. -/
def RingBuffer.push (rb : RingBuffer T) (value : T) : Except Error Unit × RingBuffer T :=
  let head0 := rb.idx_head + 1
  let head := if head0 = rb.m_data.length then 0 else head0
  if head = rb.idx_tail then (.error .Full, rb)
  else (.ok (), ⟨head, rb.idx_tail, rb.m_data.set rb.idx_head value⟩)

/-- `RingBuffer::pop`: fail with `Empty` if head equals tail, otherwise swap
the slot at tail with a zeroed value, advance tail with wraparound and publish
it, returning the removed value. -/
def RingBuffer.pop (zero : T) (rb : RingBuffer T) : Except Error T × RingBuffer T :=
  if rb.idx_head = rb.idx_tail then (.error .Empty, rb)
  else
    let res := rb.m_data.getD rb.idx_tail zero
    let tail0 := rb.idx_tail + 1
    let tail := if tail0 = rb.m_data.length then 0 else tail0
    (.ok res, ⟨rb.idx_head, tail, rb.m_data.set rb.idx_tail zero⟩)

/-- `RingBuffer::is_full`: `idx_tail == (idx_head + 1) % SIZE`. -/
def RingBuffer.is_full (rb : RingBuffer T) : Bool :=
  rb.idx_tail == (rb.idx_head + 1) % rb.m_data.length

/-- `RingBuffer::is_empty`: `idx_head == idx_tail`. -/
def RingBuffer.is_empty (rb : RingBuffer T) : Bool :=
  rb.idx_head == rb.idx_tail

/-- A single sequential call on the channel: a producer `push` of a value or a
consumer `pop`. -/
inductive Op (T : Type) where
  | push (v : T) : Op T
  | pop : Op T

/-- Run a sequence of calls from a state, collecting the state after the run,
the values of the successful pushes in order, and the values returned by the
successful pops in order.  Failed calls keep the state the code left them with
(the code returns early, so that state is the input state). -/
def runTrace (zero : T) : List (Op T) → RingBuffer T → RingBuffer T × List T × List T
  | [], rb => (rb, [], [])
  | Op.push v :: ops, rb =>
    match rb.push v with
    | (Except.ok _, rb') =>
      let r := runTrace zero ops rb'
      (r.1, v :: r.2.1, r.2.2)
    | (Except.error _, rb') => runTrace zero ops rb'
  | Op.pop :: ops, rb =>
    match rb.pop zero with
    | (Except.ok v, rb') =>
      let r := runTrace zero ops rb'
      (r.1, r.2.1, v :: r.2.2)
    | (Except.error _, rb') => runTrace zero ops rb'

/-- The channel state after running a call sequence from a freshly constructed
capacity-N channel. -/
def finalState (zero : T) (ops : List (Op T)) (N : Nat) : RingBuffer T :=
  (runTrace zero ops (RingBuffer.new zero N)).1

/-- The successfully pushed values, in order, of a call sequence run from a
freshly constructed capacity-N channel. -/
def pushedValues (zero : T) (ops : List (Op T)) (N : Nat) : List T :=
  (runTrace zero ops (RingBuffer.new zero N)).2.1

/-- The values returned by the successful pops, in order, of a call sequence
run from a freshly constructed capacity-N channel. -/
def poppedValues (zero : T) (ops : List (Op T)) (N : Nat) : List T :=
  (runTrace zero ops (RingBuffer.new zero N)).2.2

end LockfreeQueue

namespace LockfreeValue

/-- `LockFreeValue<T, ITEM_SIZE>` from lockfree_value.rs: backing array plus
the producer cursor `set_idx` and the consumer cursor `get_idx`. -/
structure LockFreeValue (T : Type) where
  data : List T
  set_idx : Nat
  get_idx : Nat
deriving DecidableEq

variable {T : Type}

/-- `LockFreeValue::new` via `T::default()`. -/
def new (dflt : T) (SIZE : Nat) : LockFreeValue T :=
  ⟨List.replicate SIZE dflt, 0, 0⟩

/-- `LockFreeValue::next_idx`: `(set_idx + 1) & (SIZE - 1)`.  Note the code
masks with `SIZE - 1` rather than reducing modulo `SIZE`. -/
def next_idx (s : LockFreeValue T) : Nat :=
  (s.set_idx + 1) &&& (s.data.length - 1)

/-- `LockFreeValue::next_idx_safe`: the masked successor of `set_idx`, skipped
one further (again masked) when it lands on `get_idx`. -/
def next_idx_safe (s : LockFreeValue T) : Nat :=
  let next := (s.set_idx + 1) &&& (s.data.length - 1)
  if next = s.get_idx then (s.get_idx + 1) &&& (s.data.length - 1)
  else next

/-- `LockFreeValue::push`: write the value into the slot chosen by
`next_idx_safe`, then publish that index into `set_idx`.  The displaced
occupant of the slot is overwritten, not returned. -/
def push (s : LockFreeValue T) (value : T) : LockFreeValue T :=
  let next := next_idx_safe s
  ⟨s.data.set next value, next, s.get_idx⟩

/-- `LockFreeValue::changed`: `get_idx != set_idx`. -/
def changed (s : LockFreeValue T) : Bool :=
  s.get_idx != s.set_idx

/-- `LockFreeValue::unchanged`: `get_idx == set_idx`. -/
def unchanged (s : LockFreeValue T) : Bool :=
  s.get_idx == s.set_idx

/-- `LockFreeValue::get_last`: unconditionally store `set_idx` into `get_idx`
and return the value at `set_idx` (the Rust method returns `&T`; the model
returns the slot's value). -/
def get_last (zero : T) (s : LockFreeValue T) : T × LockFreeValue T :=
  let set_idx := s.set_idx
  (s.data.getD set_idx zero, ⟨s.data, s.set_idx, set_idx⟩)

/-- `LockFreeValue::get_next`: `None` when `unchanged`, otherwise the result
of `get_last`. -/
def get_next (zero : T) (s : LockFreeValue T) : Option T × LockFreeValue T :=
  if unchanged s then (none, s)
  else
    let r := get_last zero s
    (some r.1, r.2)

end LockfreeValue

namespace DefaultValue

/-- Modelled from the spec: the error enum of src/default/error.rs, whose
source file is not present in the repository snapshot (src/default/value.rs
imports it as `super::error::Error`).  Per the spec's error taxonomy it has a
`Full` variant and an `Empty` variant, neither carrying a payload. -/
inductive Error where
  | Empty : Error
  | Full : Error
deriving DecidableEq

/-- `LockFreeValue<T, ITEM_SIZE>` from default/value.rs: same shape as the
lockfree_value.rs variant (the `CachePadded` wrappers around the cursors are a
cache-layout detail with no sequential meaning). -/
structure LockFreeValue (T : Type) where
  data : List T
  set_idx : Nat
  get_idx : Nat
deriving DecidableEq

variable {T : Type}

/-- `LockFreeValue::new` via `Default::default()`. -/
def new (dflt : T) (SIZE : Nat) : LockFreeValue T :=
  ⟨List.replicate SIZE dflt, 0, 0⟩

/-- `LockFreeValue::next_idx` of default/value.rs: `(set_idx + 1) & (SIZE - 1)`. -/
def next_idx (s : LockFreeValue T) : Nat :=
  (s.set_idx + 1) &&& (s.data.length - 1)

/-- `LockFreeValue::next_idx_safe` of default/value.rs: identical formula to
the lockfree_value.rs variant. -/
def next_idx_safe (s : LockFreeValue T) : Nat :=
  let next := (s.set_idx + 1) &&& (s.data.length - 1)
  if next = s.get_idx then (s.get_idx + 1) &&& (s.data.length - 1)
  else next

/-- `LockFreeValue::set_value` of default/value.rs:
`std::mem::replace(&mut self.data[idx], value)` — returns the old occupant and
stores the new value. -/
def set_value (zero : T) (s : LockFreeValue T) (idx : Nat) (value : T) :
    T × LockFreeValue T :=
  (s.data.getD idx zero, ⟨s.data.set idx value, s.set_idx, s.get_idx⟩)

/-- `LockFreeValue::push` of default/value.rs: replace the slot chosen by
`next_idx_safe` with the value, publish the chosen index into `set_idx`, and
return the displaced occupant. -/
def push (zero : T) (s : LockFreeValue T) (value : T) : T × LockFreeValue T :=
  let next := next_idx_safe s
  let r := set_value zero s next value
  (r.1, ⟨r.2.data, next, r.2.get_idx⟩)

/-- `LockFreeValue::changed` of default/value.rs. -/
def changed (s : LockFreeValue T) : Bool :=
  s.get_idx != s.set_idx

/-- `LockFreeValue::unchanged` of default/value.rs. -/
def unchanged (s : LockFreeValue T) : Bool :=
  s.get_idx == s.set_idx

/-- `LockFreeValue::get_last` of default/value.rs: fail with `Empty` when
`set_idx == get_idx`, otherwise claim the slot by storing `set_idx` into
`get_idx` and take the value out of it, leaving `T::default()` behind. -/
def get_last (zero : T) (s : LockFreeValue T) : Except Error T × LockFreeValue T :=
  let set_idx := s.set_idx
  let get_idx := s.get_idx
  if set_idx = get_idx then (.error .Empty, s)
  else (.ok (s.data.getD set_idx zero), ⟨s.data.set set_idx zero, s.set_idx, set_idx⟩)

end DefaultValue

/-- The slot-selection rule in the spec's words: candidate `(set_idx + 1) mod N`,
skipped to `(get_idx + 1) mod N` when the candidate equals `get_idx`.  Written
from the spec for comparison with the source's `next_idx_safe`. -/
def next_idx_safe_spec (N set_idx get_idx : Nat) : Nat :=
  let next := (set_idx + 1) % N
  if next = get_idx then (get_idx + 1) % N
  else next

/-- One wraparound step: the value of `a % N` when `a < 2 * N`, written without
the modulo so that linear arithmetic can reason about it. -/
def wrap (N a : Nat) : Nat :=
  if a < N then a else a - N

namespace LockfreeQueue

/-- The abstraction relation for the ring buffer: `l` is the FIFO queue of
live values.  The cursors are in range, the queue has at most `SIZE - 1`
elements, the head cursor sits `l.length` slots (circularly) past the tail
cursor, and the slots from the tail onward hold exactly the elements of `l`
in order. -/
structure RBinv {T : Type} (zero : T) (rb : RingBuffer T) (l : List T) : Prop where
  hsize : 0 < rb.m_data.length
  hh : rb.idx_head < rb.m_data.length
  ht : rb.idx_tail < rb.m_data.length
  hlen : l.length < rb.m_data.length
  hhead : rb.idx_head = rb.idx_tail + l.length ∨
    rb.idx_head + rb.m_data.length = rb.idx_tail + l.length
  hdata : ∀ i, i < l.length →
    rb.m_data.getD (wrap rb.m_data.length (rb.idx_tail + i)) zero = l.getD i zero

end LockfreeQueue

theorem mod_two_cases (a N : Nat) (h : a < 2 * N) :
    a % N = if a < N then a else a - N := by
  split_ifs with h1
  · exact Nat.mod_eq_of_lt h1
  · rw [Nat.mod_eq_sub_mod (by omega)]
    exact Nat.mod_eq_of_lt (by omega)

theorem getD_set_ne {T : Type} (l : List T) (i j : Nat) (a d : T) (h : i ≠ j) :
    (l.set i a).getD j d = l.getD j d := by
  simp [List.getD_eq_getElem?_getD, List.getElem?_set_ne h]

theorem getD_set_self {T : Type} (l : List T) (i : Nat) (a d : T) (h : i < l.length) :
    (l.set i a).getD i d = a := by
  simp [List.getD_eq_getElem?_getD, List.getElem?_set_self h]

theorem next_mask_core (k a b : Nat) (hk : 0 < k) :
    (if (a + 1) &&& (2 ^ k - 1) = b then (b + 1) &&& (2 ^ k - 1)
      else (a + 1) &&& (2 ^ k - 1)) = next_idx_safe_spec (2 ^ k) a b ∧
    (if (a + 1) &&& (2 ^ k - 1) = b then (b + 1) &&& (2 ^ k - 1)
      else (a + 1) &&& (2 ^ k - 1)) ≠ b := by
  have h1 : (a + 1) &&& (2 ^ k - 1) = (a + 1) % 2 ^ k :=
    Nat.and_pow_two_sub_one_eq_mod _ _
  have h2 : (b + 1) &&& (2 ^ k - 1) = (b + 1) % 2 ^ k :=
    Nat.and_pow_two_sub_one_eq_mod _ _
  have hN : 2 ≤ 2 ^ k := by
    calc 2 = 2 ^ 1 := rfl
    _ ≤ 2 ^ k := Nat.pow_le_pow_right (by omega) hk
  rw [h1, h2]
  by_cases hc : (a + 1) % 2 ^ k = b
  · have hb : b < 2 ^ k := hc ▸ Nat.mod_lt _ (by omega)
    have hb1 : (b + 1) % 2 ^ k ≠ b := by
      rw [mod_two_cases _ _ (by omega)]
      split_ifs <;> omega
    simp only [if_pos hc]
    exact ⟨by simp [next_idx_safe_spec, hc], hb1⟩
  · simp only [if_neg hc]
    exact ⟨by simp [next_idx_safe_spec, hc], hc⟩

/-- C3 counterexample: on a freshly constructed depth-3 slot, publish("a")
followed by take_latest does not return "a" — it returns nothing, because the
mask `(set_idx + 1) & (3 - 1)` keeps the published index equal to `get_idx`
(`(0 + 1) & 2 = 0`), so the consumer sees no change. -/
theorem c3_depth3_counterexample :
    (LockfreeValue.get_next "" (LockfreeValue.push (LockfreeValue.new "" 3) "a")).1 ≠
      some "a" ∧
    (LockfreeValue.get_next "" (LockfreeValue.push (LockfreeValue.new "" 3) "a")).1 =
      none := by
  have h : (LockfreeValue.get_next "" (LockfreeValue.push (LockfreeValue.new "" 3) "a")).1 =
      none := rfl
  exact ⟨by rw [h]; simp, h⟩

/-- C3 amended: the scenario of the claim holds at the power-of-two depth
N = 4 (but not at the claimed depth 3, where the `& (SIZE - 1)` masking breaks
index advancement): publish("a"); take_latest returns "a"; take_latest again
fails empty; publish("b"); publish("c"); take_latest returns "c". -/
theorem c3_depth4_scenario :
    LockfreeValue.push (LockfreeValue.new "" 4) "a" =
      (⟨["", "a", "", ""], 1, 0⟩ : LockfreeValue.LockFreeValue String) ∧
    LockfreeValue.get_next ""
        (⟨["", "a", "", ""], 1, 0⟩ : LockfreeValue.LockFreeValue String) =
      (some "a", ⟨["", "a", "", ""], 1, 1⟩) ∧
    LockfreeValue.get_next ""
        (⟨["", "a", "", ""], 1, 1⟩ : LockfreeValue.LockFreeValue String) =
      (none, ⟨["", "a", "", ""], 1, 1⟩) ∧
    LockfreeValue.push
        (⟨["", "a", "", ""], 1, 1⟩ : LockfreeValue.LockFreeValue String) "b" =
      (⟨["", "a", "b", ""], 2, 1⟩ : LockfreeValue.LockFreeValue String) ∧
    LockfreeValue.push
        (⟨["", "a", "b", ""], 2, 1⟩ : LockfreeValue.LockFreeValue String) "c" =
      (⟨["", "a", "b", "c"], 3, 1⟩ : LockfreeValue.LockFreeValue String) ∧
    LockfreeValue.get_next ""
        (⟨["", "a", "b", "c"], 3, 1⟩ : LockfreeValue.LockFreeValue String) =
      (some "c", ⟨["", "a", "b", "c"], 3, 3⟩) :=
  ⟨rfl, rfl, rfl, rfl, rfl, rfl⟩

/-- C4 counterexample: already on the freshly constructed depth-3 slot the
code's slot choice differs from the spec's `(set_idx + 1) mod N` rule (the
code picks slot 0, the rule picks slot 1), and the chosen slot is exactly the
slot `get_idx` points at — the collision the claim rules out. -/
theorem c4_depth3_counterexample :
    LockfreeValue.next_idx_safe (LockfreeValue.new 0 3) ≠
      next_idx_safe_spec 3 (LockfreeValue.new 0 3).set_idx (LockfreeValue.new 0 3).get_idx ∧
    LockfreeValue.next_idx_safe (LockfreeValue.new 0 3) =
      (LockfreeValue.new 0 3).get_idx :=
  ⟨by decide, by decide⟩

/-- C4 amended: for every depth N = 2 ^ k with k ≥ 1 (the depths where the
`& (SIZE - 1)` masking agrees with reduction modulo N), and every state of
either LockFreeValue variant, `next_idx_safe` chooses `(set_idx + 1) mod N`,
skipping to `(get_idx + 1) mod N` when that candidate equals `get_idx`, and
the chosen slot is never the slot `get_idx` points at. -/
theorem c4_pow2_slot_selection {T U : Type} (s : LockfreeValue.LockFreeValue T)
    (u : DefaultValue.LockFreeValue U) (k : Nat) (hk : 0 < k)
    (hs : s.data.length = 2 ^ k) (hu : u.data.length = 2 ^ k) :
    (LockfreeValue.next_idx_safe s = next_idx_safe_spec (2 ^ k) s.set_idx s.get_idx ∧
      LockfreeValue.next_idx_safe s ≠ s.get_idx) ∧
    (DefaultValue.next_idx_safe u = next_idx_safe_spec (2 ^ k) u.set_idx u.get_idx ∧
      DefaultValue.next_idx_safe u ≠ u.get_idx) := by
  have C1 := next_mask_core k s.set_idx s.get_idx hk
  have C2 := next_mask_core k u.set_idx u.get_idx hk
  constructor
  · simpa only [LockfreeValue.next_idx_safe, hs] using C1
  · simpa only [DefaultValue.next_idx_safe, hu] using C2

/-- C4 witness: the amended selection rule evaluated at depth 4 on concrete
states of both variants. -/
theorem c4_pow2_slot_selection_witness :
    (LockfreeValue.next_idx_safe (⟨[0, 0, 0, 0], 1, 2⟩ : LockfreeValue.LockFreeValue Nat) =
        next_idx_safe_spec (2 ^ 2) 1 2 ∧
      LockfreeValue.next_idx_safe (⟨[0, 0, 0, 0], 1, 2⟩ : LockfreeValue.LockFreeValue Nat) ≠ 2) ∧
    (DefaultValue.next_idx_safe (⟨[0, 0, 0, 0], 3, 0⟩ : DefaultValue.LockFreeValue Nat) =
        next_idx_safe_spec (2 ^ 2) 3 0 ∧
      DefaultValue.next_idx_safe (⟨[0, 0, 0, 0], 3, 0⟩ : DefaultValue.LockFreeValue Nat) ≠ 0) :=
  c4_pow2_slot_selection (⟨[0, 0, 0, 0], 1, 2⟩ : LockfreeValue.LockFreeValue Nat)
    (⟨[0, 0, 0, 0], 3, 0⟩ : DefaultValue.LockFreeValue Nat) 2 (by decide) (by decide) (by decide)

/-- C5 counterexample: pushing 99 onto a full capacity-4 channel fails with
Full and 99 is recoverable from no component of the call's result — the
`Result<(), Error>` carries no value and the buffer does not contain it, so
ownership of the value is not returned to the caller; the value is dropped. -/
theorem c5_full_push_drops_value :
    ((⟨3, 0, [1, 2, 3, 0]⟩ : LockfreeQueue.RingBuffer Nat).push 99).1 =
      Except.error LockfreeQueue.Error.Full ∧
    ((⟨3, 0, [1, 2, 3, 0]⟩ : LockfreeQueue.RingBuffer Nat).push 99).2 =
      (⟨3, 0, [1, 2, 3, 0]⟩ : LockfreeQueue.RingBuffer Nat) ∧
    ¬ 99 ∈ ((⟨3, 0, [1, 2, 3, 0]⟩ : LockfreeQueue.RingBuffer Nat).push 99).2.m_data :=
  ⟨rfl, rfl, by decide⟩

/-- C5 amended: when push fails with Full the channel state is unchanged, so
in particular the pushed value is not stored (a value not already in the
buffer is absent from it afterwards); the value is however consumed and
dropped by the failed call, not handed back, since the error carries no
payload. -/
theorem c5_full_push_not_stored {T : Type} (rb : LockfreeQueue.RingBuffer T) (v : T)
    (h : (rb.push v).1 = Except.error LockfreeQueue.Error.Full) :
    (rb.push v).2 = rb ∧ (¬ v ∈ rb.m_data → ¬ v ∈ (rb.push v).2.m_data) := by
  simp only [LockfreeQueue.RingBuffer.push] at h ⊢
  split_ifs at h ⊢ <;> exact ⟨rfl, fun hv => hv⟩

/-- C5 witness: the amended statement evaluated on a concrete full channel. -/
theorem c5_full_push_not_stored_witness :
    ((⟨3, 0, [1, 2, 3, 0]⟩ : LockfreeQueue.RingBuffer Nat).push 99).2 =
      (⟨3, 0, [1, 2, 3, 0]⟩ : LockfreeQueue.RingBuffer Nat) ∧
    (¬ 99 ∈ [1, 2, 3, 0] →
      ¬ 99 ∈ ((⟨3, 0, [1, 2, 3, 0]⟩ : LockfreeQueue.RingBuffer Nat).push 99).2.m_data) :=
  c5_full_push_not_stored (⟨3, 0, [1, 2, 3, 0]⟩ : LockfreeQueue.RingBuffer Nat) 99 rfl

/-- C6: error atomicity — whenever push returns Full or pop returns Empty,
the whole channel state (head, tail and every slot) is exactly what it was
before the failed call. -/
theorem c6_error_atomicity {T : Type} (zero : T) (rb : LockfreeQueue.RingBuffer T) (v : T) :
    ((rb.push v).1 = Except.error LockfreeQueue.Error.Full → (rb.push v).2 = rb) ∧
    ((rb.pop zero).1 = Except.error LockfreeQueue.Error.Empty → (rb.pop zero).2 = rb) := by
  constructor
  · intro h
    simp only [LockfreeQueue.RingBuffer.push] at h ⊢
    split_ifs at h ⊢ <;> rfl
  · intro h
    simp only [LockfreeQueue.RingBuffer.pop] at h ⊢
    split_ifs at h ⊢ <;> rfl

/-- C6 witness: a failed push on a concrete full channel and a failed pop on a
concrete empty channel both leave the state untouched. -/
theorem c6_error_atomicity_witness :
    ((⟨3, 0, [1, 2, 3, 0]⟩ : LockfreeQueue.RingBuffer Nat).push 99).2 =
      (⟨3, 0, [1, 2, 3, 0]⟩ : LockfreeQueue.RingBuffer Nat) ∧
    ((⟨2, 2, [0, 0, 0, 0]⟩ : LockfreeQueue.RingBuffer Nat).pop 0).2 =
      (⟨2, 2, [0, 0, 0, 0]⟩ : LockfreeQueue.RingBuffer Nat) :=
  ⟨(c6_error_atomicity 0 (⟨3, 0, [1, 2, 3, 0]⟩ : LockfreeQueue.RingBuffer Nat) 99).1 rfl,
    (c6_error_atomicity 0 (⟨2, 2, [0, 0, 0, 0]⟩ : LockfreeQueue.RingBuffer Nat) 0).2 rfl⟩

/-- C8 counterexample: in lockfree_value.rs, push overwrites the displaced
occupant without returning it.  Pushing 99 onto the state with slots
[10, 20, 30, 40], set_idx = 0, get_idx = 3 writes slot 1; the displaced 20
appears nowhere in the call's result (push returns only the updated state),
so the previous occupant is not returned to the caller. -/
theorem c8_push_drops_displaced :
    (LockfreeValue.push (⟨[10, 20, 30, 40], 0, 3⟩ : LockfreeValue.LockFreeValue Nat) 99).data =
      [10, 99, 30, 40] ∧
    ¬ 20 ∈ (LockfreeValue.push (⟨[10, 20, 30, 40], 0, 3⟩ : LockfreeValue.LockFreeValue Nat)
      99).data :=
  ⟨rfl, by decide⟩

/-- C8 amended: the default/value.rs publish returns the displaced occupant of
the chosen slot, writes the new value there, and stores the chosen index into
set_idx with get_idx untouched; the lockfree_value.rs publish performs the
same write and index store but discards the displaced occupant instead of
returning it. -/
theorem c8_publish_displaced {T : Type} (zero : T) (s : DefaultValue.LockFreeValue T)
    (u : LockfreeValue.LockFreeValue T) (v : T) :
    ((DefaultValue.push zero s v).1 = s.data.getD (DefaultValue.next_idx_safe s) zero ∧
      (DefaultValue.push zero s v).2.data = s.data.set (DefaultValue.next_idx_safe s) v ∧
      (DefaultValue.push zero s v).2.set_idx = DefaultValue.next_idx_safe s ∧
      (DefaultValue.push zero s v).2.get_idx = s.get_idx) ∧
    ((LockfreeValue.push u v).data = u.data.set (LockfreeValue.next_idx_safe u) v ∧
      (LockfreeValue.push u v).set_idx = LockfreeValue.next_idx_safe u ∧
      (LockfreeValue.push u v).get_idx = u.get_idx) :=
  ⟨⟨rfl, rfl, rfl, rfl⟩, ⟨rfl, rfl, rfl⟩⟩

/-- C9: taking twice with no publish in between — on both LockFreeValue
variants, the first take returns the pending value whenever one is pending
(set_idx different from get_idx), and the second take always fails empty,
from every starting state. -/
theorem c9_take_twice_empty {T : Type} (zero : T) (s : DefaultValue.LockFreeValue T)
    (u : LockfreeValue.LockFreeValue T) :
    ((s.set_idx ≠ s.get_idx →
        (DefaultValue.get_last zero s).1 = Except.ok (s.data.getD s.set_idx zero)) ∧
      (DefaultValue.get_last zero (DefaultValue.get_last zero s).2).1 =
        Except.error DefaultValue.Error.Empty) ∧
    ((u.set_idx ≠ u.get_idx →
        (LockfreeValue.get_next zero u).1 = some (u.data.getD u.set_idx zero)) ∧
      (LockfreeValue.get_next zero (LockfreeValue.get_next zero u).2).1 = none) := by
  refine ⟨⟨?_, ?_⟩, ?_, ?_⟩
  · intro h
    simp [DefaultValue.get_last, h]
  · by_cases h : s.set_idx = s.get_idx
    · simp [DefaultValue.get_last, h]
    · simp [DefaultValue.get_last, h]
  · intro h
    have h' : u.get_idx ≠ u.set_idx := fun e => h e.symm
    simp [LockfreeValue.get_next, LockfreeValue.unchanged, LockfreeValue.get_last, h']
  · by_cases h : u.get_idx = u.set_idx
    · simp [LockfreeValue.get_next, LockfreeValue.unchanged, h]
    · simp [LockfreeValue.get_next, LockfreeValue.unchanged, LockfreeValue.get_last, h]

/-- C9 witness: both variants evaluated at a concrete state with a pending
value in slot 1. -/
theorem c9_take_twice_empty_witness :
    ((DefaultValue.get_last 0 (⟨[5, 7], 1, 0⟩ : DefaultValue.LockFreeValue Nat)).1 =
        Except.ok 7 ∧
      (DefaultValue.get_last 0
          (DefaultValue.get_last 0 (⟨[5, 7], 1, 0⟩ : DefaultValue.LockFreeValue Nat)).2).1 =
        Except.error DefaultValue.Error.Empty) ∧
    ((LockfreeValue.get_next 0 (⟨[5, 7], 1, 0⟩ : LockfreeValue.LockFreeValue Nat)).1 =
        some 7 ∧
      (LockfreeValue.get_next 0
          (LockfreeValue.get_next 0 (⟨[5, 7], 1, 0⟩ : LockfreeValue.LockFreeValue Nat)).2).1 =
        none) := by
  have h := c9_take_twice_empty 0 (⟨[5, 7], 1, 0⟩ : DefaultValue.LockFreeValue Nat)
    (⟨[5, 7], 1, 0⟩ : LockfreeValue.LockFreeValue Nat)
  exact ⟨⟨h.1.1 (by decide), h.1.2⟩, ⟨h.2.1 (by decide), h.2.2⟩⟩

/-- C10: every get_last call unconditionally stores set_idx into get_idx and
returns the value at set_idx, so immediately afterwards unchanged is true,
changed is false, and get_next yields nothing and leaves the state fixed
(hence keeps yielding nothing until a publish changes set_idx). -/
theorem c10_get_last_consumes_flag {T : Type} (zero : T)
    (u : LockfreeValue.LockFreeValue T) :
    (LockfreeValue.get_last zero u).1 = u.data.getD u.set_idx zero ∧
    (LockfreeValue.get_last zero u).2.get_idx = u.set_idx ∧
    (LockfreeValue.get_last zero u).2.set_idx = u.set_idx ∧
    (LockfreeValue.get_last zero u).2.data = u.data ∧
    LockfreeValue.unchanged (LockfreeValue.get_last zero u).2 = true ∧
    LockfreeValue.changed (LockfreeValue.get_last zero u).2 = false ∧
    LockfreeValue.get_next zero (LockfreeValue.get_last zero u).2 =
      (none, (LockfreeValue.get_last zero u).2) := by
  refine ⟨rfl, rfl, rfl, rfl, ?_, ?_, ?_⟩
  · simp [LockfreeValue.unchanged, LockfreeValue.get_last]
  · simp [LockfreeValue.changed, LockfreeValue.get_last]
  · simp [LockfreeValue.get_next, LockfreeValue.unchanged, LockfreeValue.get_last]

theorem LockfreeQueue.push_ok {T : Type} (zero : T) (rb : LockfreeQueue.RingBuffer T)
    (l : List T) (v : T) (inv : LockfreeQueue.RBinv zero rb l)
    (hroom : l.length + 1 < rb.m_data.length) :
    rb.push v = (Except.ok (),
      ⟨if rb.idx_head + 1 = rb.m_data.length then 0 else rb.idx_head + 1,
        rb.idx_tail, rb.m_data.set rb.idx_head v⟩) ∧
    LockfreeQueue.RBinv zero
      ⟨if rb.idx_head + 1 = rb.m_data.length then 0 else rb.idx_head + 1,
        rb.idx_tail, rb.m_data.set rb.idx_head v⟩ (l ++ [v]) := by
  obtain ⟨hsize, hh, ht, hlen, hhead, hdata⟩ := inv
  have hcond : (if rb.idx_head + 1 = rb.m_data.length then 0 else rb.idx_head + 1) ≠
      rb.idx_tail := by
    rcases hhead with hH | hH <;> split_ifs <;> omega
  refine ⟨by simp only [RingBuffer.push]; rw [if_neg hcond], ?_, ?_, ?_, ?_, ?_, ?_⟩
  · simpa using hsize
  · simp only [List.length_set]
    split_ifs <;> omega
  · simpa using ht
  · simp only [List.length_set, List.length_append, List.length_cons, List.length_nil]
    omega
  · simp only [List.length_set, List.length_append, List.length_cons, List.length_nil]
    rcases hhead with hH | hH <;> split_ifs <;> omega
  · intro i hi
    simp only [List.length_set]
    have hi2 : i < l.length + 1 := by simpa using hi
    rcases Nat.lt_or_ge i l.length with hi3 | hi3
    · have hne : rb.idx_head ≠ wrap rb.m_data.length (rb.idx_tail + i) := by
        unfold wrap
        rcases hhead with hH | hH <;> split_ifs <;> omega
      rw [getD_set_ne _ _ _ _ _ hne]
      exact (hdata i hi3).trans (List.getD_append l [v] zero i hi3).symm
    · have hieq : i = l.length := by omega
      subst hieq
      have hwrap : wrap rb.m_data.length (rb.idx_tail + l.length) = rb.idx_head := by
        unfold wrap
        rcases hhead with hH | hH <;> split_ifs <;> omega
      rw [hwrap, getD_set_self _ _ _ _ hh,
        List.getD_append_right l [v] zero l.length (le_refl _)]
      simp

theorem LockfreeQueue.push_full {T : Type} (zero : T) (rb : LockfreeQueue.RingBuffer T)
    (l : List T) (v : T) (inv : LockfreeQueue.RBinv zero rb l)
    (hfull : l.length + 1 = rb.m_data.length) :
    rb.push v = (Except.error LockfreeQueue.Error.Full, rb) := by
  obtain ⟨hsize, hh, ht, hlen, hhead, hdata⟩ := inv
  have hcond : (if rb.idx_head + 1 = rb.m_data.length then 0 else rb.idx_head + 1) =
      rb.idx_tail := by
    rcases hhead with hH | hH <;> split_ifs <;> omega
  simp only [RingBuffer.push]
  rw [if_pos hcond]

theorem LockfreeQueue.pop_empty {T : Type} (zero : T) (rb : LockfreeQueue.RingBuffer T)
    (inv : LockfreeQueue.RBinv zero rb []) :
    rb.pop zero = (Except.error LockfreeQueue.Error.Empty, rb) := by
  obtain ⟨hsize, hh, ht, hlen, hhead, hdata⟩ := inv
  have hcond : rb.idx_head = rb.idx_tail := by
    rcases hhead with hH | hH <;> simp only [List.length_nil] at hH <;> omega
  simp only [RingBuffer.pop]
  rw [if_pos hcond]

theorem LockfreeQueue.pop_ok {T : Type} (zero : T) (rb : LockfreeQueue.RingBuffer T)
    (v : T) (l' : List T) (inv : LockfreeQueue.RBinv zero rb (v :: l')) :
    rb.pop zero = (Except.ok v,
      ⟨rb.idx_head, if rb.idx_tail + 1 = rb.m_data.length then 0 else rb.idx_tail + 1,
        rb.m_data.set rb.idx_tail zero⟩) ∧
    LockfreeQueue.RBinv zero
      ⟨rb.idx_head, if rb.idx_tail + 1 = rb.m_data.length then 0 else rb.idx_tail + 1,
        rb.m_data.set rb.idx_tail zero⟩ l' := by
  obtain ⟨hsize, hh, ht, hlen, hhead, hdata⟩ := inv
  rw [List.length_cons] at hhead hlen
  have hne : rb.idx_head ≠ rb.idx_tail := by
    rcases hhead with hH | hH <;> omega
  have hv : rb.m_data.getD rb.idx_tail zero = v := by
    have h0 := hdata 0 (by simp)
    simpa [wrap, ht] using h0
  refine ⟨by simp only [RingBuffer.pop]; rw [if_neg hne, hv], ?_, ?_, ?_, ?_, ?_, ?_⟩
  · simpa using hsize
  · simpa using hh
  · simp only [List.length_set]
    split_ifs <;> omega
  · simp only [List.length_set]
    omega
  · simp only [List.length_set]
    rcases hhead with hH | hH <;> split_ifs <;> omega
  · intro i hi
    simp only [List.length_set]
    have hidx : wrap rb.m_data.length
        ((if rb.idx_tail + 1 = rb.m_data.length then 0 else rb.idx_tail + 1) + i) =
        wrap rb.m_data.length (rb.idx_tail + (i + 1)) := by
      unfold wrap
      split_ifs <;> omega
    have hne2 : rb.idx_tail ≠ wrap rb.m_data.length (rb.idx_tail + (i + 1)) := by
      unfold wrap
      split_ifs <;> omega
    rw [hidx, getD_set_ne _ _ _ _ _ hne2]
    have h1 := hdata (i + 1) (by simp only [List.length_cons]; omega)
    simpa using h1

theorem LockfreeQueue.runTrace_push_ok {T : Type} (zero v : T)
    (ops : List (LockfreeQueue.Op T)) (rb rb' : LockfreeQueue.RingBuffer T)
    (h : rb.push v = (Except.ok (), rb')) :
    LockfreeQueue.runTrace zero (LockfreeQueue.Op.push v :: ops) rb =
      ((LockfreeQueue.runTrace zero ops rb').1,
        v :: (LockfreeQueue.runTrace zero ops rb').2.1,
        (LockfreeQueue.runTrace zero ops rb').2.2) := by
  simp only [runTrace, h]

theorem LockfreeQueue.runTrace_push_err {T : Type} (zero v : T) (e : LockfreeQueue.Error)
    (ops : List (LockfreeQueue.Op T)) (rb rb' : LockfreeQueue.RingBuffer T)
    (h : rb.push v = (Except.error e, rb')) :
    LockfreeQueue.runTrace zero (LockfreeQueue.Op.push v :: ops) rb =
      LockfreeQueue.runTrace zero ops rb' := by
  simp only [runTrace, h]

theorem LockfreeQueue.runTrace_pop_ok {T : Type} (zero v : T)
    (ops : List (LockfreeQueue.Op T)) (rb rb' : LockfreeQueue.RingBuffer T)
    (h : rb.pop zero = (Except.ok v, rb')) :
    LockfreeQueue.runTrace zero (LockfreeQueue.Op.pop :: ops) rb =
      ((LockfreeQueue.runTrace zero ops rb').1,
        (LockfreeQueue.runTrace zero ops rb').2.1,
        v :: (LockfreeQueue.runTrace zero ops rb').2.2) := by
  simp only [runTrace, h]

theorem LockfreeQueue.runTrace_pop_err {T : Type} (zero : T) (e : LockfreeQueue.Error)
    (ops : List (LockfreeQueue.Op T)) (rb rb' : LockfreeQueue.RingBuffer T)
    (h : rb.pop zero = (Except.error e, rb')) :
    LockfreeQueue.runTrace zero (LockfreeQueue.Op.pop :: ops) rb =
      LockfreeQueue.runTrace zero ops rb' := by
  simp only [runTrace, h]

theorem LockfreeQueue.runTrace_inv {T : Type} (zero : T) :
    ∀ (ops : List (LockfreeQueue.Op T)) (rb : LockfreeQueue.RingBuffer T) (l : List T),
      LockfreeQueue.RBinv zero rb l →
      ∃ lf, LockfreeQueue.RBinv zero (LockfreeQueue.runTrace zero ops rb).1 lf ∧
        l ++ (LockfreeQueue.runTrace zero ops rb).2.1 =
          (LockfreeQueue.runTrace zero ops rb).2.2 ++ lf := by
  intro ops
  induction ops with
  | nil =>
    intro rb l inv
    exact ⟨l, inv, by simp [runTrace]⟩
  | cons op ops ih =>
    intro rb l inv
    cases op with
    | push v =>
      rcases Nat.lt_or_ge (l.length + 1) rb.m_data.length with hroom | hfull
      · obtain ⟨hpush, inv'⟩ := push_ok zero rb l v inv hroom
        rw [runTrace_push_ok zero v ops rb _ hpush]
        obtain ⟨lf, invf, heq⟩ := ih _ (l ++ [v]) inv'
        refine ⟨lf, invf, ?_⟩
        simp only [List.append_assoc] at heq ⊢
        simpa using heq
      · have hfull2 : l.length + 1 = rb.m_data.length := by
          have := inv.hlen
          omega
        have hpush := push_full zero rb l v inv hfull2
        rw [runTrace_push_err zero v LockfreeQueue.Error.Full ops rb rb hpush]
        exact ih rb l inv
    | pop =>
      cases l with
      | nil =>
        have hpop := pop_empty zero rb inv
        rw [runTrace_pop_err zero LockfreeQueue.Error.Empty ops rb rb hpop]
        exact ih rb [] inv
      | cons v l' =>
        obtain ⟨hpop, inv'⟩ := pop_ok zero rb v l' inv
        rw [runTrace_pop_ok zero v ops rb _ hpop]
        obtain ⟨lf, invf, heq⟩ := ih _ l' inv'
        refine ⟨lf, invf, ?_⟩
        simp only [List.cons_append, heq]

theorem LockfreeQueue.new_inv {T : Type} (zero : T) (N : Nat) (hN : 0 < N) :
    LockfreeQueue.RBinv zero (LockfreeQueue.RingBuffer.new zero N) [] := by
  refine ⟨?_, ?_, ?_, ?_, Or.inl rfl, ?_⟩
  · simpa [RingBuffer.new] using hN
  · simpa [RingBuffer.new] using hN
  · simpa [RingBuffer.new] using hN
  · simpa [RingBuffer.new] using hN
  · intro i hi
    simp at hi

theorem LockfreeQueue.length_runTrace {T : Type} (zero : T) :
    ∀ (ops : List (LockfreeQueue.Op T)) (rb : LockfreeQueue.RingBuffer T),
      (LockfreeQueue.runTrace zero ops rb).1.m_data.length = rb.m_data.length := by
  intro ops
  induction ops with
  | nil => intro rb; rfl
  | cons op ops ih =>
    intro rb
    cases op with
    | push v =>
      rcases hr : rb.push v with ⟨r, rb'⟩
      have hlen : rb'.m_data.length = rb.m_data.length := by
        have h2 : (rb.push v).2 = rb' := by rw [hr]
        rw [← h2]
        simp only [RingBuffer.push]
        split_ifs <;> simp
      cases r with
      | ok u =>
        cases u
        rw [runTrace_push_ok zero v ops rb rb' hr]
        rw [ih rb']
        exact hlen
      | error e =>
        rw [runTrace_push_err zero v e ops rb rb' hr]
        rw [ih rb']
        exact hlen
    | pop =>
      rcases hr : rb.pop zero with ⟨r, rb'⟩
      have hlen : rb'.m_data.length = rb.m_data.length := by
        have h2 : (rb.pop zero).2 = rb' := by rw [hr]
        rw [← h2]
        simp only [RingBuffer.pop]
        split_ifs <;> simp
      cases r with
      | ok v =>
        rw [runTrace_pop_ok zero v ops rb rb' hr]
        rw [ih rb']
        exact hlen
      | error e =>
        rw [runTrace_pop_err zero e ops rb rb' hr]
        rw [ih rb']
        exact hlen

theorem LockfreeQueue.pushAll_ok {T : Type} (zero : T) :
    ∀ (vs : List T) (rb : LockfreeQueue.RingBuffer T) (l : List T),
      LockfreeQueue.RBinv zero rb l → l.length + vs.length < rb.m_data.length →
      (LockfreeQueue.runTrace zero (vs.map LockfreeQueue.Op.push) rb).2.1 = vs ∧
      (LockfreeQueue.runTrace zero (vs.map LockfreeQueue.Op.push) rb).2.2 = [] ∧
      LockfreeQueue.RBinv zero
        (LockfreeQueue.runTrace zero (vs.map LockfreeQueue.Op.push) rb).1 (l ++ vs) := by
  intro vs
  induction vs with
  | nil =>
    intro rb l inv hroom
    exact ⟨rfl, rfl, by simpa using inv⟩
  | cons v vs ih =>
    intro rb l inv hroom
    simp only [List.length_cons] at hroom
    obtain ⟨hpush, inv'⟩ := push_ok zero rb l v inv (by omega)
    rw [List.map_cons, runTrace_push_ok zero v (vs.map LockfreeQueue.Op.push) rb _ hpush]
    obtain ⟨ha, hb, hc⟩ := ih _ (l ++ [v]) inv' (by
      simp only [List.length_append, List.length_cons, List.length_nil, List.length_set]
      omega)
    refine ⟨by rw [ha], hb, ?_⟩
    simpa [List.append_assoc] using hc

theorem LockfreeQueue.popAll_ok {T : Type} (zero : T) :
    ∀ (l : List T) (rb : LockfreeQueue.RingBuffer T),
      LockfreeQueue.RBinv zero rb l →
      (LockfreeQueue.runTrace zero (List.replicate l.length LockfreeQueue.Op.pop) rb).2.1 =
        [] ∧
      (LockfreeQueue.runTrace zero (List.replicate l.length LockfreeQueue.Op.pop) rb).2.2 =
        l ∧
      LockfreeQueue.RBinv zero
        (LockfreeQueue.runTrace zero (List.replicate l.length LockfreeQueue.Op.pop) rb).1
        [] := by
  intro l
  induction l with
  | nil =>
    intro rb inv
    exact ⟨rfl, rfl, inv⟩
  | cons v l' ih =>
    intro rb inv
    obtain ⟨hpop, inv'⟩ := pop_ok zero rb v l' inv
    rw [List.length_cons, List.replicate_succ,
      runTrace_pop_ok zero v (List.replicate l'.length LockfreeQueue.Op.pop) rb _ hpop]
    obtain ⟨ha, hb, hc⟩ := ih _ inv'
    exact ⟨ha, by rw [hb], hc⟩

/-- C2: FIFO exactly-once — for every sequence of push and pop calls run
sequentially on a freshly constructed capacity-N channel, the values returned
by the successful pops are an initial segment of the successfully pushed
values: same values, same order, none duplicated, none skipped. -/
theorem c2_fifo_exactly_once {T : Type} (zero : T) (N : Nat)
    (ops : List (LockfreeQueue.Op T)) (hN : 0 < N) :
    LockfreeQueue.poppedValues zero ops N =
      (LockfreeQueue.pushedValues zero ops N).take
        (LockfreeQueue.poppedValues zero ops N).length := by
  obtain ⟨lf, invf, heq⟩ := LockfreeQueue.runTrace_inv zero ops
    (LockfreeQueue.RingBuffer.new zero N) [] (LockfreeQueue.new_inv zero N hN)
  simp only [List.nil_append] at heq
  simp only [LockfreeQueue.poppedValues, LockfreeQueue.pushedValues]
  rw [heq, List.take_left]

/-- C2 witness: a concrete interleaving on a capacity-4 channel. -/
theorem c2_fifo_exactly_once_witness :
    0 < 4 ∧
    LockfreeQueue.poppedValues 0
        [LockfreeQueue.Op.push 1, LockfreeQueue.Op.pop, LockfreeQueue.Op.push 2,
          LockfreeQueue.Op.push 3, LockfreeQueue.Op.pop] 4 =
      (LockfreeQueue.pushedValues 0
          [LockfreeQueue.Op.push 1, LockfreeQueue.Op.pop, LockfreeQueue.Op.push 2,
            LockfreeQueue.Op.push 3, LockfreeQueue.Op.pop] 4).take
        (LockfreeQueue.poppedValues 0
            [LockfreeQueue.Op.push 1, LockfreeQueue.Op.pop, LockfreeQueue.Op.push 2,
              LockfreeQueue.Op.push 3, LockfreeQueue.Op.pop] 4).length :=
  ⟨by decide, c2_fifo_exactly_once 0 4
    [LockfreeQueue.Op.push 1, LockfreeQueue.Op.pop, LockfreeQueue.Op.push 2,
      LockfreeQueue.Op.push 3, LockfreeQueue.Op.pop] (by decide)⟩

/-- C7: occupancy invariant — in every state reachable from a freshly
constructed capacity-N channel by a sequence of push and pop calls, both
cursors are in range, the number of pushed-but-not-yet-popped values equals
(head - tail) mod N (computed as (head + N - tail) mod N), head equals tail
exactly when no live value is held, and (head + 1) mod N equals tail exactly
when the maximum N - 1 values are held. -/
theorem c7_occupancy_invariant {T : Type} (zero : T) (N : Nat)
    (ops : List (LockfreeQueue.Op T)) (hN : 0 < N) :
    (LockfreeQueue.finalState zero ops N).idx_head < N ∧
    (LockfreeQueue.finalState zero ops N).idx_tail < N ∧
    (LockfreeQueue.pushedValues zero ops N).length -
        (LockfreeQueue.poppedValues zero ops N).length =
      ((LockfreeQueue.finalState zero ops N).idx_head + N -
        (LockfreeQueue.finalState zero ops N).idx_tail) % N ∧
    ((LockfreeQueue.finalState zero ops N).idx_head =
        (LockfreeQueue.finalState zero ops N).idx_tail ↔
      (LockfreeQueue.pushedValues zero ops N).length -
        (LockfreeQueue.poppedValues zero ops N).length = 0) ∧
    (((LockfreeQueue.finalState zero ops N).idx_head + 1) % N =
        (LockfreeQueue.finalState zero ops N).idx_tail ↔
      (LockfreeQueue.pushedValues zero ops N).length -
        (LockfreeQueue.poppedValues zero ops N).length = N - 1) := by
  simp only [LockfreeQueue.finalState, LockfreeQueue.pushedValues,
    LockfreeQueue.poppedValues]
  obtain ⟨lf, invf, heq⟩ := LockfreeQueue.runTrace_inv zero ops
    (LockfreeQueue.RingBuffer.new zero N) [] (LockfreeQueue.new_inv zero N hN)
  simp only [List.nil_append] at heq
  have hlenN :
      (LockfreeQueue.runTrace zero ops
        (LockfreeQueue.RingBuffer.new zero N)).1.m_data.length = N := by
    rw [LockfreeQueue.length_runTrace]
    simp [LockfreeQueue.RingBuffer.new]
  obtain ⟨hsize, hh, ht, hlen, hhead, hdata⟩ := invf
  rw [hlenN] at hh ht hlen hhead
  have hcount :
      (LockfreeQueue.runTrace zero ops (LockfreeQueue.RingBuffer.new zero N)).2.1.length -
        (LockfreeQueue.runTrace zero ops
          (LockfreeQueue.RingBuffer.new zero N)).2.2.length = lf.length := by
    have := congrArg List.length heq
    simp only [List.length_append] at this
    omega
  rw [hcount]
  refine ⟨hh, ht, ?_, ?_, ?_⟩
  · rw [mod_two_cases _ _ (by omega)]
    rcases hhead with hH | hH <;> split_ifs <;> omega
  · rcases hhead with hH | hH <;> omega
  · rw [mod_two_cases _ _ (by omega)]
    rcases hhead with hH | hH <;> split_ifs <;> omega

/-- C7 witness: the invariant evaluated after a concrete interleaving on a
capacity-4 channel. -/
theorem c7_occupancy_invariant_witness :
    0 < 4 ∧
    ((LockfreeQueue.finalState 0
        [LockfreeQueue.Op.push 1, LockfreeQueue.Op.push 2, LockfreeQueue.Op.pop] 4).idx_head <
        4 ∧
      (LockfreeQueue.finalState 0
        [LockfreeQueue.Op.push 1, LockfreeQueue.Op.push 2, LockfreeQueue.Op.pop] 4).idx_tail <
        4 ∧
      (LockfreeQueue.pushedValues 0
            [LockfreeQueue.Op.push 1, LockfreeQueue.Op.push 2, LockfreeQueue.Op.pop]
            4).length -
          (LockfreeQueue.poppedValues 0
            [LockfreeQueue.Op.push 1, LockfreeQueue.Op.push 2, LockfreeQueue.Op.pop]
            4).length =
        ((LockfreeQueue.finalState 0
            [LockfreeQueue.Op.push 1, LockfreeQueue.Op.push 2, LockfreeQueue.Op.pop]
            4).idx_head + 4 -
          (LockfreeQueue.finalState 0
            [LockfreeQueue.Op.push 1, LockfreeQueue.Op.push 2, LockfreeQueue.Op.pop]
            4).idx_tail) % 4 ∧
      ((LockfreeQueue.finalState 0
            [LockfreeQueue.Op.push 1, LockfreeQueue.Op.push 2, LockfreeQueue.Op.pop]
            4).idx_head =
          (LockfreeQueue.finalState 0
            [LockfreeQueue.Op.push 1, LockfreeQueue.Op.push 2, LockfreeQueue.Op.pop]
            4).idx_tail ↔
        (LockfreeQueue.pushedValues 0
              [LockfreeQueue.Op.push 1, LockfreeQueue.Op.push 2, LockfreeQueue.Op.pop]
              4).length -
            (LockfreeQueue.poppedValues 0
              [LockfreeQueue.Op.push 1, LockfreeQueue.Op.push 2, LockfreeQueue.Op.pop]
              4).length = 0) ∧
      (((LockfreeQueue.finalState 0
              [LockfreeQueue.Op.push 1, LockfreeQueue.Op.push 2, LockfreeQueue.Op.pop]
              4).idx_head + 1) % 4 =
          (LockfreeQueue.finalState 0
            [LockfreeQueue.Op.push 1, LockfreeQueue.Op.push 2, LockfreeQueue.Op.pop]
            4).idx_tail ↔
        (LockfreeQueue.pushedValues 0
              [LockfreeQueue.Op.push 1, LockfreeQueue.Op.push 2, LockfreeQueue.Op.pop]
              4).length -
            (LockfreeQueue.poppedValues 0
              [LockfreeQueue.Op.push 1, LockfreeQueue.Op.push 2, LockfreeQueue.Op.pop]
              4).length = 4 - 1)) :=
  ⟨by decide, c7_occupancy_invariant 0 4
    [LockfreeQueue.Op.push 1, LockfreeQueue.Op.push 2, LockfreeQueue.Op.pop] (by decide)⟩

/-- C1: capacity is N - 1 — from a freshly constructed capacity-N channel,
pushing any N - 1 values succeeds (with no pops), one further push fails with
Full, draining with N - 1 pops returns exactly those values in order, and one
further pop fails with Empty; and the concrete capacity-4 scenario: push(1),
push(2), push(3) succeed, push(4) fails Full, pop() returns 1 then 2, push(4)
then succeeds, the next two pops return 3 and 4, and one more pop fails
Empty. -/
theorem c1_capacity (N : Nat) (vs : List Nat) (w : Nat) (hN : 0 < N)
    (hvs : vs.length = N - 1) :
    (LockfreeQueue.pushedValues 0 (vs.map LockfreeQueue.Op.push) N = vs ∧
      LockfreeQueue.poppedValues 0 (vs.map LockfreeQueue.Op.push) N = [] ∧
      ((LockfreeQueue.finalState 0 (vs.map LockfreeQueue.Op.push) N).push w).1 =
        Except.error LockfreeQueue.Error.Full ∧
      (LockfreeQueue.runTrace 0 (List.replicate (N - 1) LockfreeQueue.Op.pop)
          (LockfreeQueue.finalState 0 (vs.map LockfreeQueue.Op.push) N)).2.2 = vs ∧
      ((LockfreeQueue.runTrace 0 (List.replicate (N - 1) LockfreeQueue.Op.pop)
          (LockfreeQueue.finalState 0 (vs.map LockfreeQueue.Op.push) N)).1.pop 0).1 =
        Except.error LockfreeQueue.Error.Empty) ∧
    ((LockfreeQueue.RingBuffer.new 0 4).push 1 =
        (Except.ok (), ⟨1, 0, [1, 0, 0, 0]⟩) ∧
      (⟨1, 0, [1, 0, 0, 0]⟩ : LockfreeQueue.RingBuffer Nat).push 2 =
        (Except.ok (), ⟨2, 0, [1, 2, 0, 0]⟩) ∧
      (⟨2, 0, [1, 2, 0, 0]⟩ : LockfreeQueue.RingBuffer Nat).push 3 =
        (Except.ok (), ⟨3, 0, [1, 2, 3, 0]⟩) ∧
      (⟨3, 0, [1, 2, 3, 0]⟩ : LockfreeQueue.RingBuffer Nat).push 4 =
        (Except.error LockfreeQueue.Error.Full, ⟨3, 0, [1, 2, 3, 0]⟩) ∧
      (⟨3, 0, [1, 2, 3, 0]⟩ : LockfreeQueue.RingBuffer Nat).pop 0 =
        (Except.ok 1, ⟨3, 1, [0, 2, 3, 0]⟩) ∧
      (⟨3, 1, [0, 2, 3, 0]⟩ : LockfreeQueue.RingBuffer Nat).pop 0 =
        (Except.ok 2, ⟨3, 2, [0, 0, 3, 0]⟩) ∧
      (⟨3, 2, [0, 0, 3, 0]⟩ : LockfreeQueue.RingBuffer Nat).push 4 =
        (Except.ok (), ⟨0, 2, [0, 0, 3, 4]⟩) ∧
      (⟨0, 2, [0, 0, 3, 4]⟩ : LockfreeQueue.RingBuffer Nat).pop 0 =
        (Except.ok 3, ⟨0, 3, [0, 0, 0, 4]⟩) ∧
      (⟨0, 3, [0, 0, 0, 4]⟩ : LockfreeQueue.RingBuffer Nat).pop 0 =
        (Except.ok 4, ⟨0, 0, [0, 0, 0, 0]⟩) ∧
      (⟨0, 0, [0, 0, 0, 0]⟩ : LockfreeQueue.RingBuffer Nat).pop 0 =
        (Except.error LockfreeQueue.Error.Empty, ⟨0, 0, [0, 0, 0, 0]⟩)) := by
  constructor
  · have inv0 := LockfreeQueue.new_inv 0 N hN
    have hNlen : (LockfreeQueue.RingBuffer.new (0 : Nat) N).m_data.length = N := by
      simp [LockfreeQueue.RingBuffer.new]
    obtain ⟨hpush1, hpush2, inv1⟩ := LockfreeQueue.pushAll_ok 0 vs
      (LockfreeQueue.RingBuffer.new 0 N) [] inv0 (by simp [hNlen]; omega)
    have inv1' : LockfreeQueue.RBinv 0
        (LockfreeQueue.finalState 0 (vs.map LockfreeQueue.Op.push) N) vs := by
      simpa [LockfreeQueue.finalState] using inv1
    have hflen :
        (LockfreeQueue.finalState 0 (vs.map LockfreeQueue.Op.push) N).m_data.length = N := by
      simp only [LockfreeQueue.finalState]
      rw [LockfreeQueue.length_runTrace]
      exact hNlen
    have hfull := LockfreeQueue.push_full 0
      (LockfreeQueue.finalState 0 (vs.map LockfreeQueue.Op.push) N) vs w inv1'
      (by rw [hflen]; omega)
    obtain ⟨hpop1, hpop2, inv2⟩ := LockfreeQueue.popAll_ok 0 vs
      (LockfreeQueue.finalState 0 (vs.map LockfreeQueue.Op.push) N) inv1'
    have hempty := LockfreeQueue.pop_empty 0
      (LockfreeQueue.runTrace 0 (List.replicate vs.length LockfreeQueue.Op.pop)
        (LockfreeQueue.finalState 0 (vs.map LockfreeQueue.Op.push) N)).1 inv2
    rw [hvs] at hpop2 hempty
    refine ⟨hpush1, hpush2, ?_, hpop2, ?_⟩
    · rw [hfull]
    · rw [hempty]
  · exact ⟨rfl, rfl, rfl, rfl, rfl, rfl, rfl, rfl, rfl, rfl⟩

/-- C1 witness: the general capacity statement instantiated at N = 4 with the
values [5, 6, 7]. -/
theorem c1_capacity_witness :
    0 < 4 ∧ ([5, 6, 7] : List Nat).length = 4 - 1 ∧
    LockfreeQueue.pushedValues 0 ([5, 6, 7].map LockfreeQueue.Op.push) 4 = [5, 6, 7] ∧
    (LockfreeQueue.runTrace 0 (List.replicate (4 - 1) LockfreeQueue.Op.pop)
        (LockfreeQueue.finalState 0 ([5, 6, 7].map LockfreeQueue.Op.push) 4)).2.2 =
      [5, 6, 7] := by
  have h := c1_capacity 4 [5, 6, 7] 9 (by decide) (by decide)
  exact ⟨by decide, by decide, h.1.1, h.1.2.2.2.1⟩
